import Mathlib

/-!
# bmx `print.go`: credential printing

A shallow embedding of `print.go` (package `bmx`) and the properties of its
two shell formatters, of `GetUserInfoFromPrintCmdOptions` and of `Print`.

Conventions of the embedding:

* a Go `string` is its byte sequence (`GoString`);
* a Go pointer is an `Option` (`none` is `nil`); dereferencing `nil` panics;
* a call that writes to `os.Stdout` yields an `Outcome`: the bytes it wrote and
  whether it panicked;
* `fmt.Printf` is embedded for the directives `print.go` uses (`doPrintf`).
-/

set_option maxRecDepth 8192

namespace Bmx

/-! ## Strings -/

/-- A Go string: an immutable sequence of bytes (not necessarily valid UTF-8). -/
abbrev GoString := List UInt8

/-- The bytes of a string literal of the source (Go source text is UTF-8). -/
def bytes (s : String) : GoString := s.data.flatMap String.utf8EncodeChar

/-- The byte `'%'`, which opens a directive in a format. -/
def percent : UInt8 := 37

/-- The byte `'s'`, the verb of `%s`. -/
def verbS : UInt8 := 115

/-- The byte `'\n'`. -/
def newline : UInt8 := 10

/-- The single-quote byte. -/
def quote : UInt8 := 39

/-! ## `fmt.Printf` on string operands

`fmt.(*pp).doPrintf` copies the format to the buffer up to the next `'%'`, then
processes one directive. The embedding covers string operands and the
directives `%s` and `%%`, with the library's diagnostics for a missing operand,
a missing verb and unused operands; any other directive is outside the
embedded fragment (`none`). -/

/-- The tail `doPrintf` appends when operands are left over:
`%!(EXTRA string=a, string=b)`; nothing when all operands were used. -/
def extraArgs : List GoString → GoString
  | [] => []
  | a :: rest =>
    bytes "%!(EXTRA " ++ (bytes ", ").intercalate ((a :: rest).map (bytes "string=" ++ ·)) ++ bytes ")"

/-- The buffer `doPrintf` builds for `format` and the string operands `a`.
`none`: the format has a directive other than `%s` and `%%`. -/
def doPrintf : GoString → List GoString → Option GoString
  | [], a => some (extraArgs a)
  | c :: format, a =>
    if c ≠ percent then (doPrintf format a).map (c :: ·)
    else
      match format with
      | [] => some (bytes "%!(NOVERB)" ++ extraArgs a)
      | verb :: format =>
        if verb = percent then (doPrintf format a).map (percent :: ·)
        else if verb = verbS then
          match a with
          | [] => (doPrintf format []).map (bytes "%!s(MISSING)" ++ ·)
          | arg :: a => (doPrintf format a).map (arg ++ ·)
        else none

/-! ## Panics and standard output -/

/-- The run-time panics of the embedded code. -/
inductive Panic where
  /-- Dereference of a nil pointer. -/
  | nilDereference
  deriving DecidableEq, Repr

/-- What a call did: the bytes it wrote to `os.Stdout` (assumed to accept every
write) and the panic that ended it, if any. -/
structure Outcome where
  stdout : GoString
  panic : Option Panic
  deriving DecidableEq, Repr

/-- Pointer indirection: `*p`, and the implicit one of `p.f` for a pointer `p`. -/
def deref {α : Type} : Option α → Except Panic α
  | some v => .ok v
  | none => .error .nilDereference

/-- The call `fmt.Printf(format, a...)`: one write of the formatted buffer to
`os.Stdout`. `none`: outside the embedded fragment of `fmt`. -/
def Printf (format : GoString) (a : List GoString) : Option Outcome :=
  (doPrintf format a).map fun buf => { stdout := buf, panic := none }

/-! ## Data model -/

/-- The type `sts.Credentials` of the AWS SDK: four pointer fields. The
expiration (`*time.Time`) is kept as a timestamp; `print.go` never reads it. -/
structure Credentials where
  AccessKeyId : Option GoString
  Expiration : Option Int
  SecretAccessKey : Option GoString
  SessionToken : Option GoString
  deriving DecidableEq, Repr

/-! ## The formatters -/

/-- The operands of both `Printf` calls, evaluated left to right before the
call: `*credentials.SessionToken, *credentials.AccessKeyId,
*credentials.SecretAccessKey`. -/
def credentialOperands (credentials : Option Credentials) : Except Panic (List GoString) := do
  let sessionToken ← deref (← deref credentials).SessionToken
  let accessKeyId ← deref (← deref credentials).AccessKeyId
  let secretAccessKey ← deref (← deref credentials).SecretAccessKey
  pure [sessionToken, accessKeyId, secretAccessKey]

/-- Source function `printPowershell` (its format is a raw string literal). -/
def printPowershell (credentials : Option Credentials) : Option Outcome :=
  match credentialOperands credentials with
  | .error p => some { stdout := [], panic := some p }
  | .ok a =>
    Printf (bytes "$env:AWS_SESSION_TOKEN='%s'; $env:AWS_ACCESS_KEY_ID='%s'; $env:AWS_SECRET_ACCESS_KEY='%s'") a

/-- Source function `printBash`. -/
def printBash (credentials : Option Credentials) : Option Outcome :=
  match credentialOperands credentials with
  | .error p => some { stdout := [], panic := some p }
  | .ok a =>
    Printf (bytes "export AWS_SESSION_TOKEN=%s\nexport AWS_ACCESS_KEY_ID=%s\nexport AWS_SECRET_ACCESS_KEY=%s") a

/-! ## `Print` and its collaborators -/

/-- Modelled from the spec: the value object `serviceProviders.UserInfo`, declared in another
package; its five fields are those of the composite literal in
`GetUserInfoFromPrintCmdOptions` and of the specification's data model. -/
structure UserInfo where
  Org : GoString
  User : GoString
  Account : GoString
  NoMask : Bool
  Password : GoString
  deriving DecidableEq

/-- How a call of a function that is not part of `print.go` ends. -/
inductive Returns (α : Type) where
  /-- The call returned `v`. -/
  | value (v : α)
  /-- The call did not return: it panicked or ended the process. -/
  | abort

/-- Modelled from the spec: the interface `serviceProviders.ServiceProvider`, declared in
another package, with its one capability `GetCredentials(session, userInfo)`. `Session` stands
for `identityProviders.IdentityProvider`; the call may act on the outside world (network,
terminal), kept as an explicit `World`. -/
structure ServiceProvider (Session World : Type) where
  GetCredentials : Session → UserInfo → World → Returns (Option Credentials) × World

/-- Source type `PrintCmdOptions`; a nil `Provider` interface is `none`. -/
structure PrintCmdOptions (Session World : Type) where
  Org : GoString
  User : GoString
  Account : GoString
  NoMask : Bool
  Password : GoString
  Provider : Option (ServiceProvider Session World)

/-- Source function `GetUserInfoFromPrintCmdOptions`. -/
def GetUserInfoFromPrintCmdOptions {Session World : Type}
    (printOptions : PrintCmdOptions Session World) : UserInfo :=
  let user : UserInfo :=
    { Org := printOptions.Org,
      User := printOptions.User,
      Account := printOptions.Account,
      NoMask := printOptions.NoMask,
      Password := printOptions.Password }
  user

/-- One invocation of `GetCredentials`: the receiver and the two arguments. -/
structure Call (Session World : Type) where
  provider : ServiceProvider Session World
  oktaClient : Session
  user : UserInfo

/-- The calls `Print` makes, in the order it makes them. -/
inductive Event (Session World : Type) where
  | GetCredentials (call : Call Session World)
  | printDefaultFormat (creds : Option Credentials)

/-- The frame of a function that calls `Print(oktaClient, printOptions)`: its two variables
holding the arguments. -/
structure Caller (Session World : Type) where
  oktaClient : Session
  printOptions : PrintCmdOptions Session World

/-- The stack while `Print` runs: the caller's frame, and above it `Print`'s two parameter
variables. -/
structure Stack (Session World : Type) where
  caller : Caller Session World
  oktaClient : Session
  printOptions : PrintCmdOptions Session World

/-- What one execution of `Print` did: the stack when it ended, the calls it made, the world
it left and how it ended. -/
structure PrintRun (Session World : Type) where
  stack : Stack Session World
  trace : List (Event Session World)
  world : World
  result : Returns Unit

/-- Source function `Print`, called from a frame whose variables hold `oktaClient` and
`printOptions`. The value `aws.AwsServiceProvider{}` and the function `printDefaultFormat`,
both declared outside `print.go`, are parameters. -/
def Print {Session World : Type} (awsServiceProvider : ServiceProvider Session World)
    (printDefaultFormat : Option Credentials → World → Returns Unit × World)
    (oktaClient : Session) (printOptions : PrintCmdOptions Session World) (world : World) :
    PrintRun Session World :=
  -- the call: arguments are passed by value, each parameter is a new variable
  let stack : Stack Session World :=
    { caller := { oktaClient := oktaClient, printOptions := printOptions },
      oktaClient := oktaClient,
      printOptions := printOptions }
  -- if printOptions.Provider == nil: assign the AWS variant to the parameter's field
  let stack :=
    if stack.printOptions.Provider.isNone then
      { stack with printOptions := { stack.printOptions with Provider := some awsServiceProvider } }
    else stack
  -- creds := printOptions.Provider.GetCredentials(oktaClient, GetUserInfo...(printOptions))
  match stack.printOptions.Provider with
  | none =>
    -- a method call on a nil interface panics
    { stack := stack, trace := [], world := world, result := .abort }
  | some provider =>
    let user := GetUserInfoFromPrintCmdOptions stack.printOptions
    let call : Call Session World :=
      { provider := provider, oktaClient := stack.oktaClient, user := user }
    match provider.GetCredentials stack.oktaClient user world with
    | (.abort, world) =>
      { stack := stack, trace := [.GetCredentials call], world := world, result := .abort }
    | (.value creds, world) =>
      -- printDefaultFormat(creds)
      match printDefaultFormat creds world with
      | (result, world) =>
        { stack := stack,
          trace := [.GetCredentials call, .printDefaultFormat creds],
          world := world, result := result }

/-- The invocations of `GetCredentials` in a run. -/
def PrintRun.calls {Session World : Type} (run : PrintRun Session World) :
    List (Call Session World) :=
  run.trace.filterMap fun
    | .GetCredentials call => some call
    | .printDefaultFormat _ => none

/-! ## Notions of the specification -/

/-- The POSIX statement of the specification for the values `t`, `k`, `s`:
`export AWS_SESSION_TOKEN=<t>\nexport AWS_ACCESS_KEY_ID=<k>\nexport AWS_SECRET_ACCESS_KEY=<s>`. -/
def posixStatement (t k s : GoString) : GoString :=
  bytes "export AWS_SESSION_TOKEN=" ++ t ++ bytes "\nexport AWS_ACCESS_KEY_ID=" ++ k
    ++ bytes "\nexport AWS_SECRET_ACCESS_KEY=" ++ s

/-- The PowerShell statement of the specification for the values `t`, `k`, `s`:
`$env:AWS_SESSION_TOKEN='<t>'; $env:AWS_ACCESS_KEY_ID='<k>'; $env:AWS_SECRET_ACCESS_KEY='<s>'`. -/
def powershellStatement (t k s : GoString) : GoString :=
  bytes "$env:AWS_SESSION_TOKEN='" ++ t ++ bytes "'; $env:AWS_ACCESS_KEY_ID='" ++ k
    ++ bytes "'; $env:AWS_SECRET_ACCESS_KEY='" ++ s ++ bytes "'"

/-- A credentials pointer that is nil or has a nil pointer among the three
fields the formatters print. -/
def Incomplete : Option Credentials → Prop
  | none => True
  | some c => c.SessionToken = none ∨ c.AccessKeyId = none ∨ c.SecretAccessKey = none

/-- An outcome that failed without writing anything. -/
def failedSilently : Outcome := { stdout := [], panic := some .nilDereference }

/-- An outcome that wrote `out` and returned. -/
def wrote (out : GoString) : Outcome := { stdout := out, panic := none }

/-- The provider `Print` is to use for given options: the one set, else the AWS variant. -/
def effectiveProvider {Session World : Type} (awsServiceProvider : ServiceProvider Session World)
    (printOptions : PrintCmdOptions Session World) : ServiceProvider Session World :=
  printOptions.Provider.getD awsServiceProvider

/-- The stack the specification expects when `Print` ends: the caller's two variables as they
were, and in `Print`'s own `printOptions` the effective provider. -/
def stackAfter {Session World : Type} (awsServiceProvider : ServiceProvider Session World)
    (oktaClient : Session) (printOptions : PrintCmdOptions Session World) :
    Stack Session World :=
  { caller := { oktaClient := oktaClient, printOptions := printOptions },
    oktaClient := oktaClient,
    printOptions :=
      { printOptions with Provider := some (effectiveProvider awsServiceProvider printOptions) } }

/-- Obtaining the credentials from `provider` with one `GetCredentials` invocation in `world`
and, when it returns, handing what it returned to the formatter: the result and the world
left. -/
def obtainAndFormat {Session World : Type} (provider : ServiceProvider Session World)
    (printDefaultFormat : Option Credentials → World → Returns Unit × World)
    (oktaClient : Session) (user : UserInfo) (world : World) : Returns Unit × World :=
  match provider.GetCredentials oktaClient user world with
  | (.value creds, world) => printDefaultFormat creds world
  | (.abort, world) => (.abort, world)

/-- The invariant of the specification on a run: every `GetCredentials` invocation receives a
`UserInfo` with a non-empty `Org` and a non-empty `User`. -/
def OrgAndUserNonEmpty {Session World : Type} (run : PrintRun Session World) : Prop :=
  ∀ call ∈ run.calls, call.user.Org ≠ [] ∧ call.user.User ≠ []

/-- Removes the literal `lit` from the front of `line`; `none` when `line` does not start
with it. -/
def stripLiteral : GoString → GoString → Option GoString
  | [], line => some line
  | _ :: _, [] => none
  | b :: lit, c :: line => if b = c then stripLiteral lit line else none

/-- Reads a POSIX statement back: split on `'\n'`, expect three lines, strip the fixed
literal of each. -/
def readExports (out : GoString) : Option (GoString × GoString × GoString) :=
  match out.splitOn newline with
  | [l₁, l₂, l₃] => do
    let t ← stripLiteral (bytes "export AWS_SESSION_TOKEN=") l₁
    let k ← stripLiteral (bytes "export AWS_ACCESS_KEY_ID=") l₂
    let s ← stripLiteral (bytes "export AWS_SECRET_ACCESS_KEY=") l₃
    pure (t, k, s)
  | _ => none

/-! ## Concrete inputs -/

/-- Credentials whose values hold spaces, quotes, `$`, `%s` and a newline. -/
def awkwardCredentials : Credentials :=
  { AccessKeyId := some (bytes "K%s%d"),
    Expiration := none,
    SecretAccessKey := some (bytes "s'\"\n"),
    SessionToken := some (bytes " t $x ") }

/-- Credentials whose AccessKeyId alone is nil. -/
def keylessCredentials : Credentials :=
  { AccessKeyId := none,
    Expiration := none,
    SecretAccessKey := some (bytes "s"),
    SessionToken := some (bytes "t") }

/-- Credentials with plain values. -/
def plainCredentials : Credentials :=
  { AccessKeyId := some (bytes "AKIAEXAMPLE"),
    Expiration := some 1700000000,
    SecretAccessKey := some (bytes "wJalr/K7MDENG+bPxRfiCY"),
    SessionToken := some (bytes "FwoGZXIvYXdzEJr//////////wEaD=") }

/-- The same values as `plainCredentials` with another expiration. -/
def plainCredentialsLater : Credentials :=
  { plainCredentials with Expiration := some 1800000000 }

/-- First credentials of the ambiguity example: token `a`, key id holding a newline. -/
def ambiguousLeft : Credentials :=
  { AccessKeyId := some (bytes "b\nexport AWS_ACCESS_KEY_ID=c"),
    Expiration := none,
    SecretAccessKey := some (bytes "s"),
    SessionToken := some (bytes "a") }

/-- Second credentials of the ambiguity example: token holding a newline, key id `c`. -/
def ambiguousRight : Credentials :=
  { AccessKeyId := some (bytes "c"),
    Expiration := none,
    SecretAccessKey := some (bytes "s"),
    SessionToken := some (bytes "a\nexport AWS_ACCESS_KEY_ID=b") }

/-- A world that keeps books: the providers that performed an exchange and the credentials
the formatter was given, oldest first. -/
structure Ledger where
  exchanges : List GoString
  printed : List (Option Credentials)
  deriving DecidableEq

/-- A provider called `name` that enters each exchange in the ledger and returns credentials
that tell the exchanges apart: the expiration is the number of exchanges made before. -/
def ledgerProvider (name : GoString) : ServiceProvider Unit Ledger :=
  { GetCredentials := fun _ user world =>
      (.value (some
          { AccessKeyId := some name,
            Expiration := some world.exchanges.length,
            SecretAccessKey := some user.Password,
            SessionToken := some user.User }),
        { world with exchanges := world.exchanges ++ [name] }) }

/-- A formatter that enters the credentials it is given in the ledger. -/
def ledgerFormat : Option Credentials → Ledger → Returns Unit × Ledger :=
  fun creds world => (.value (), { world with printed := world.printed ++ [creds] })

/-- Options of the specification's scenario with no provider set. -/
def aliceOptions : PrintCmdOptions Unit Ledger :=
  { Org := bytes "acme", User := bytes "alice", Account := bytes "role/dev", NoMask := false,
    Password := bytes "p", Provider := none }

/-- The same options with the provider called `other` set. -/
def aliceOptionsOther : PrintCmdOptions Unit Ledger :=
  { aliceOptions with Provider := some (ledgerProvider (bytes "other")) }

/-- A ledger with nothing entered. -/
def emptyLedger : Ledger := { exchanges := [], printed := [] }

/-- A provider that returns a nil credentials pointer and leaves the world alone. -/
def nilProvider : ServiceProvider Unit Unit :=
  { GetCredentials := fun _ _ world => (.value none, world) }

/-- A provider that returns `plainCredentials`. -/
def plainProvider : ServiceProvider Unit Unit :=
  { GetCredentials := fun _ _ world => (.value (some plainCredentials), world) }

/-- A formatter that returns without effect. -/
def silentFormat : Option Credentials → Unit → Returns Unit × Unit :=
  fun _ world => (.value (), world)

/-- Options with every string empty and no provider. -/
def emptyOptions : PrintCmdOptions Unit Unit :=
  { Org := [], User := [], Account := [], NoMask := false, Password := [], Provider := none }

/-- Options of the specification's scenario, with `plainProvider` set. -/
def acmeOptions : PrintCmdOptions Unit Unit :=
  { Org := bytes "acme", User := bytes "alice", Account := bytes "role/dev", NoMask := false,
    Password := bytes "p", Provider := some plainProvider }

/-- The same options with no provider set. -/
def acmeOptionsUnset : PrintCmdOptions Unit Unit :=
  { acmeOptions with Provider := none }

/-! ## Lemmas on `doPrintf` -/

theorem doPrintf_byte (c : UInt8) (format : GoString) (a : List GoString) (h : c ≠ percent) :
    doPrintf (c :: format) a = (doPrintf format a).map (c :: ·) := by
  rw [doPrintf.eq_def]
  simp [h]

theorem doPrintf_literal (l format : GoString) (a : List GoString)
    (h : ∀ b ∈ l, b ≠ percent) :
    doPrintf (l ++ format) a = (doPrintf format a).map (l ++ ·) := by
  induction l with
  | nil => simp
  | cons c l ih =>
    have hc : c ≠ percent := h c (List.mem_cons_self _ _)
    have hl : ∀ b ∈ l, b ≠ percent := fun b hb => h b (List.mem_cons_of_mem _ hb)
    rw [List.cons_append, doPrintf_byte _ _ _ hc, ih hl]
    cases doPrintf format a <;> simp

theorem doPrintf_verbS (format : GoString) (arg : GoString) (a : List GoString) :
    doPrintf (percent :: verbS :: format) (arg :: a) = (doPrintf format a).map (arg ++ ·) := by
  have h : verbS ≠ percent := by decide
  rw [doPrintf.eq_def]
  simp [h]

/-- A format of three literals, each followed by `%s`, applied to three
operands: the literals with the operands in between, nothing else. -/
theorem doPrintf_three (l₀ l₁ l₂ t k s : GoString)
    (h₀ : ∀ b ∈ l₀, b ≠ percent) (h₁ : ∀ b ∈ l₁, b ≠ percent) (h₂ : ∀ b ∈ l₂, b ≠ percent) :
    doPrintf (l₀ ++ percent :: verbS :: (l₁ ++ percent :: verbS :: (l₂ ++ percent :: verbS :: [])))
      [t, k, s] = some (l₀ ++ t ++ l₁ ++ k ++ l₂ ++ s) := by
  rw [doPrintf_literal _ _ _ h₀, doPrintf_verbS, doPrintf_literal _ _ _ h₁, doPrintf_verbS,
    doPrintf_literal _ _ _ h₂, doPrintf_verbS]
  simp [doPrintf, extraArgs]

/-! ## Lemmas on the formatters -/

theorem credentialOperands_present (c : Credentials) (t k s : GoString)
    (ht : c.SessionToken = some t) (hk : c.AccessKeyId = some k)
    (hs : c.SecretAccessKey = some s) :
    credentialOperands (some c) = .ok [t, k, s] := by
  obtain ⟨k', e, s', t'⟩ := c
  subst ht hk hs
  rfl

theorem credentialOperands_absent (c : Credentials)
    (h : c.SessionToken = none ∨ c.AccessKeyId = none ∨ c.SecretAccessKey = none) :
    credentialOperands (some c) = .error .nilDereference := by
  obtain ⟨k, e, s, t⟩ := c
  cases t <;> cases k <;> cases s <;> first | rfl | simp at h

theorem bashFormat_eq :
    bytes "export AWS_SESSION_TOKEN=%s\nexport AWS_ACCESS_KEY_ID=%s\nexport AWS_SECRET_ACCESS_KEY=%s"
      = bytes "export AWS_SESSION_TOKEN=" ++ percent :: verbS ::
          (bytes "\nexport AWS_ACCESS_KEY_ID=" ++ percent :: verbS ::
            (bytes "\nexport AWS_SECRET_ACCESS_KEY=" ++ percent :: verbS :: [])) := by
  decide

theorem powershellFormat_eq :
    bytes "$env:AWS_SESSION_TOKEN='%s'; $env:AWS_ACCESS_KEY_ID='%s'; $env:AWS_SECRET_ACCESS_KEY='%s'"
      = bytes "$env:AWS_SESSION_TOKEN='" ++ percent :: verbS ::
          (bytes "'; $env:AWS_ACCESS_KEY_ID='" ++ percent :: verbS ::
            (bytes "'; $env:AWS_SECRET_ACCESS_KEY='" ++ percent :: verbS :: bytes "'")) := by
  decide

theorem printBash_present (c : Credentials) (t k s : GoString)
    (ht : c.SessionToken = some t) (hk : c.AccessKeyId = some k)
    (hs : c.SecretAccessKey = some s) :
    printBash (some c) = some (wrote (posixStatement t k s)) := by
  rw [printBash, credentialOperands_present c t k s ht hk hs]
  simp only [Printf]
  rw [bashFormat_eq, doPrintf_three _ _ _ _ _ _ (by decide) (by decide) (by decide)]
  rfl

theorem printPowershell_present (c : Credentials) (t k s : GoString)
    (ht : c.SessionToken = some t) (hk : c.AccessKeyId = some k)
    (hs : c.SecretAccessKey = some s) :
    printPowershell (some c) = some (wrote (powershellStatement t k s)) := by
  have hq : doPrintf (bytes "'") [] = some (bytes "'") := by decide
  rw [printPowershell, credentialOperands_present c t k s ht hk hs]
  simp only [Printf]
  rw [powershellFormat_eq, doPrintf_literal _ _ _ (by decide), doPrintf_verbS,
    doPrintf_literal _ _ _ (by decide), doPrintf_verbS, doPrintf_literal _ _ _ (by decide),
    doPrintf_verbS, hq]
  simp [wrote, powershellStatement]

theorem printBash_incomplete (credentials : Option Credentials) (h : Incomplete credentials) :
    printBash credentials = some failedSilently := by
  cases credentials with
  | none => rfl
  | some c => rw [printBash, credentialOperands_absent c h]; rfl

theorem printPowershell_incomplete (credentials : Option Credentials)
    (h : Incomplete credentials) : printPowershell credentials = some failedSilently := by
  cases credentials with
  | none => rfl
  | some c => rw [printPowershell, credentialOperands_absent c h]; rfl

/-- Every credentials pointer is incomplete or points to three present values. -/
theorem incomplete_or_present (credentials : Option Credentials) :
    Incomplete credentials ∨ ∃ c t k s, credentials = some c ∧ c.SessionToken = some t ∧
      c.AccessKeyId = some k ∧ c.SecretAccessKey = some s := by
  cases credentials with
  | none => exact Or.inl trivial
  | some c =>
    obtain ⟨k, e, s, t⟩ := c
    cases t <;> cases k <;> cases s <;> simp [Incomplete]

/-! ## Lemmas on reading the statements back -/

theorem stripLiteral_append (lit rest : GoString) : stripLiteral lit (lit ++ rest) = some rest := by
  induction lit with
  | nil => cases rest <;> rfl
  | cons b lit ih => simp [stripLiteral, ih]

/-- The POSIX statement is its three lines joined by newlines. -/
theorem posixStatement_lines (t k s : GoString) :
    posixStatement t k s = [newline].intercalate
      [bytes "export AWS_SESSION_TOKEN=" ++ t, bytes "export AWS_ACCESS_KEY_ID=" ++ k,
       bytes "export AWS_SECRET_ACCESS_KEY=" ++ s] := by
  have h₁ : bytes "\nexport AWS_ACCESS_KEY_ID=" = newline :: bytes "export AWS_ACCESS_KEY_ID=" := by
    decide
  have h₂ : bytes "\nexport AWS_SECRET_ACCESS_KEY="
      = newline :: bytes "export AWS_SECRET_ACCESS_KEY=" := by decide
  simp [posixStatement, h₁, h₂, List.intercalate]

/-- Splitting the POSIX statement of newline-free values on newlines gives its three lines. -/
theorem posixStatement_splitOn (t k s : GoString) (ht : newline ∉ t) (hk : newline ∉ k)
    (hs : newline ∉ s) :
    (posixStatement t k s).splitOn newline =
      [bytes "export AWS_SESSION_TOKEN=" ++ t, bytes "export AWS_ACCESS_KEY_ID=" ++ k,
       bytes "export AWS_SECRET_ACCESS_KEY=" ++ s] := by
  rw [posixStatement_lines]
  apply List.splitOn_intercalate
  · intro l hl
    have h₁ : newline ∉ bytes "export AWS_SESSION_TOKEN=" := by decide
    have h₂ : newline ∉ bytes "export AWS_ACCESS_KEY_ID=" := by decide
    have h₃ : newline ∉ bytes "export AWS_SECRET_ACCESS_KEY=" := by decide
    simp only [List.mem_cons, List.mem_singleton, List.not_mem_nil, or_false] at hl
    rcases hl with rfl | rfl | rfl <;> simp [List.mem_append, *]
  · simp

/-- The PowerShell statement is seven pieces joined by single quotes. -/
theorem powershellStatement_pieces (t k s : GoString) :
    powershellStatement t k s = [quote].intercalate
      [bytes "$env:AWS_SESSION_TOKEN=", t, bytes "; $env:AWS_ACCESS_KEY_ID=", k,
       bytes "; $env:AWS_SECRET_ACCESS_KEY=", s, []] := by
  have h₁ : bytes "$env:AWS_SESSION_TOKEN='" = bytes "$env:AWS_SESSION_TOKEN=" ++ [quote] := by
    decide
  have h₂ : bytes "'; $env:AWS_ACCESS_KEY_ID='"
      = quote :: (bytes "; $env:AWS_ACCESS_KEY_ID=" ++ [quote]) := by decide
  have h₃ : bytes "'; $env:AWS_SECRET_ACCESS_KEY='"
      = quote :: (bytes "; $env:AWS_SECRET_ACCESS_KEY=" ++ [quote]) := by decide
  have h₄ : bytes "'" = [quote] := by decide
  simp [powershellStatement, h₁, h₂, h₃, h₄, List.intercalate]

/-- Splitting the PowerShell statement of quote-free values on single quotes gives its
seven pieces. -/
theorem powershellStatement_splitOn (t k s : GoString) (ht : quote ∉ t) (hk : quote ∉ k)
    (hs : quote ∉ s) :
    (powershellStatement t k s).splitOn quote =
      [bytes "$env:AWS_SESSION_TOKEN=", t, bytes "; $env:AWS_ACCESS_KEY_ID=", k,
       bytes "; $env:AWS_SECRET_ACCESS_KEY=", s, []] := by
  rw [powershellStatement_pieces]
  apply List.splitOn_intercalate
  · intro l hl
    have h₁ : quote ∉ bytes "$env:AWS_SESSION_TOKEN=" := by decide
    have h₂ : quote ∉ bytes "; $env:AWS_ACCESS_KEY_ID=" := by decide
    have h₃ : quote ∉ bytes "; $env:AWS_SECRET_ACCESS_KEY=" := by decide
    simp only [List.mem_cons, List.mem_singleton, List.not_mem_nil, or_false] at hl
    rcases hl with rfl | rfl | rfl | rfl | rfl | rfl | rfl <;> simp [*]
  · simp

/-- The PowerShell statement of quote-free values has six single quotes. -/
theorem powershellStatement_count (t k s : GoString) (ht : quote ∉ t) (hk : quote ∉ k)
    (hs : quote ∉ s) : (powershellStatement t k s).count quote = 6 := by
  have h₁ : (bytes "$env:AWS_SESSION_TOKEN='").count quote = 1 := by decide
  have h₂ : (bytes "'; $env:AWS_ACCESS_KEY_ID='").count quote = 2 := by decide
  have h₃ : (bytes "'; $env:AWS_SECRET_ACCESS_KEY='").count quote = 2 := by decide
  have h₄ : (bytes "'").count quote = 1 := by decide
  simp only [powershellStatement, List.count_append, h₁, h₂, h₃, h₄,
    List.count_eq_zero_of_not_mem ht, List.count_eq_zero_of_not_mem hk,
    List.count_eq_zero_of_not_mem hs]

/-! ## Lemmas on `Print` -/

section PrintLemmas

variable {Session World : Type}

/-- The run of `Print` when the effective provider returns `creds`. -/
theorem Print_of_value (aws : ServiceProvider Session World)
    (format : Option Credentials → World → Returns Unit × World) (s : Session)
    (o : PrintCmdOptions Session World) (w w₁ : World) (creds : Option Credentials)
    (h : (effectiveProvider aws o).GetCredentials s (GetUserInfoFromPrintCmdOptions o) w
      = (.value creds, w₁)) :
    Print aws format s o w =
      { stack := stackAfter aws s o,
        trace :=
          [.GetCredentials
            { provider := effectiveProvider aws o,
              oktaClient := s,
              user := GetUserInfoFromPrintCmdOptions o },
           .printDefaultFormat creds],
        world := (format creds w₁).2,
        result := (format creds w₁).1 } := by
  obtain ⟨org, user, account, noMask, password, provider⟩ := o
  cases provider with
  | none =>
    simp only [effectiveProvider, Option.getD, GetUserInfoFromPrintCmdOptions] at h
    simp [Print, stackAfter, effectiveProvider, GetUserInfoFromPrintCmdOptions, h]
  | some p =>
    simp only [effectiveProvider, Option.getD, GetUserInfoFromPrintCmdOptions] at h
    simp [Print, stackAfter, effectiveProvider, GetUserInfoFromPrintCmdOptions, h]

/-- The run of `Print` when the effective provider does not return. -/
theorem Print_of_abort (aws : ServiceProvider Session World)
    (format : Option Credentials → World → Returns Unit × World) (s : Session)
    (o : PrintCmdOptions Session World) (w w₁ : World)
    (h : (effectiveProvider aws o).GetCredentials s (GetUserInfoFromPrintCmdOptions o) w
      = (.abort, w₁)) :
    Print aws format s o w =
      { stack := stackAfter aws s o,
        trace :=
          [.GetCredentials
            { provider := effectiveProvider aws o,
              oktaClient := s,
              user := GetUserInfoFromPrintCmdOptions o }],
        world := w₁,
        result := .abort } := by
  obtain ⟨org, user, account, noMask, password, provider⟩ := o
  cases provider with
  | none =>
    simp only [effectiveProvider, Option.getD, GetUserInfoFromPrintCmdOptions] at h
    simp [Print, stackAfter, effectiveProvider, GetUserInfoFromPrintCmdOptions, h]
  | some p =>
    simp only [effectiveProvider, Option.getD, GetUserInfoFromPrintCmdOptions] at h
    simp [Print, stackAfter, effectiveProvider, GetUserInfoFromPrintCmdOptions, h]

/-- Every run of `Print` invokes `GetCredentials` once, on the effective provider. -/
theorem Print_calls (aws : ServiceProvider Session World)
    (format : Option Credentials → World → Returns Unit × World) (s : Session)
    (o : PrintCmdOptions Session World) (w : World) :
    (Print aws format s o w).calls =
      [{ provider := effectiveProvider aws o,
         oktaClient := s,
         user := GetUserInfoFromPrintCmdOptions o }] := by
  rcases h : (effectiveProvider aws o).GetCredentials s (GetUserInfoFromPrintCmdOptions o) w
    with ⟨r, w₁⟩
  cases r with
  | value creds => rw [Print_of_value aws format s o w w₁ creds h]; rfl
  | abort => rw [Print_of_abort aws format s o w w₁ h]; rfl

/-- The stack every run of `Print` ends with. -/
theorem Print_stack (aws : ServiceProvider Session World)
    (format : Option Credentials → World → Returns Unit × World) (s : Session)
    (o : PrintCmdOptions Session World) (w : World) :
    (Print aws format s o w).stack = stackAfter aws s o := by
  rcases h : (effectiveProvider aws o).GetCredentials s (GetUserInfoFromPrintCmdOptions o) w
    with ⟨r, w₁⟩
  cases r with
  | value creds => rw [Print_of_value aws format s o w w₁ creds h]
  | abort => rw [Print_of_abort aws format s o w w₁ h]

/-- The result and the world of every run of `Print` are those of obtaining the credentials
from the effective provider once and handing them to the formatter. -/
theorem Print_result_world (aws : ServiceProvider Session World)
    (format : Option Credentials → World → Returns Unit × World) (s : Session)
    (o : PrintCmdOptions Session World) (w : World) :
    ((Print aws format s o w).result, (Print aws format s o w).world)
      = obtainAndFormat (effectiveProvider aws o) format s (GetUserInfoFromPrintCmdOptions o) w := by
  rcases h : (effectiveProvider aws o).GetCredentials s (GetUserInfoFromPrintCmdOptions o) w
    with ⟨r, w₁⟩
  cases r with
  | value creds => rw [Print_of_value aws format s o w w₁ creds h]; simp [obtainAndFormat, h]
  | abort => rw [Print_of_abort aws format s o w w₁ h]; simp [obtainAndFormat, h]

end PrintLemmas

/-! ## The formatters: exact output and failure -/

/-- C1: for credentials whose SessionToken `t`, AccessKeyId `k` and SecretAccessKey `s`
are all present, `printBash` returns normally having written exactly
`export AWS_SESSION_TOKEN=` ++ t ++ `\nexport AWS_ACCESS_KEY_ID=` ++ k ++
`\nexport AWS_SECRET_ACCESS_KEY=` ++ s: real newlines between the statements, nothing after
`s`, and `t`, `k`, `s` copied byte for byte, whatever bytes they hold. -/
theorem printBash_writes_exports (c : Credentials) (t k s : GoString)
    (ht : c.SessionToken = some t) (hk : c.AccessKeyId = some k)
    (hs : c.SecretAccessKey = some s) :
    printBash (some c) = some
      { stdout := bytes "export AWS_SESSION_TOKEN=" ++ t ++ bytes "\nexport AWS_ACCESS_KEY_ID=" ++ k
          ++ bytes "\nexport AWS_SECRET_ACCESS_KEY=" ++ s,
        panic := none } := by
  rw [printBash, credentialOperands_present c t k s ht hk hs]
  simp only [Printf]
  rw [bashFormat_eq, doPrintf_three _ _ _ t k s (by decide) (by decide) (by decide)]
  rfl

theorem printBash_writes_exports_witness :
    awkwardCredentials.SessionToken = some (bytes " t $x ") ∧
    awkwardCredentials.AccessKeyId = some (bytes "K%s%d") ∧
    awkwardCredentials.SecretAccessKey = some (bytes "s'\"\n") ∧
    printBash (some awkwardCredentials) = some
      { stdout := bytes "export AWS_SESSION_TOKEN= t $x \nexport AWS_ACCESS_KEY_ID=K%s%d\nexport AWS_SECRET_ACCESS_KEY=s'\"\n",
        panic := none } :=
  ⟨rfl, rfl, rfl, (printBash_writes_exports awkwardCredentials _ _ _ rfl rfl rfl).trans (by decide)⟩

/-- C2: for credentials whose SessionToken `t`, AccessKeyId `k` and SecretAccessKey `s`
are all present, `printPowershell` returns normally having written exactly
`$env:AWS_SESSION_TOKEN='` ++ t ++ `'; $env:AWS_ACCESS_KEY_ID='` ++ k ++
`'; $env:AWS_SECRET_ACCESS_KEY='` ++ s ++ `'`: nothing after the closing quote, and `t`, `k`,
`s` copied byte for byte (a single quote in a value included). -/
theorem printPowershell_writes_assignments (c : Credentials) (t k s : GoString)
    (ht : c.SessionToken = some t) (hk : c.AccessKeyId = some k)
    (hs : c.SecretAccessKey = some s) :
    printPowershell (some c) = some
      { stdout := bytes "$env:AWS_SESSION_TOKEN='" ++ t ++ bytes "'; $env:AWS_ACCESS_KEY_ID='" ++ k
          ++ bytes "'; $env:AWS_SECRET_ACCESS_KEY='" ++ s ++ bytes "'",
        panic := none } := by
  have hq : doPrintf (bytes "'") [] = some (bytes "'") := by decide
  rw [printPowershell, credentialOperands_present c t k s ht hk hs]
  simp only [Printf]
  rw [powershellFormat_eq, doPrintf_literal _ _ _ (by decide), doPrintf_verbS,
    doPrintf_literal _ _ _ (by decide), doPrintf_verbS, doPrintf_literal _ _ _ (by decide),
    doPrintf_verbS, hq]
  simp

theorem printPowershell_writes_assignments_witness :
    awkwardCredentials.SessionToken = some (bytes " t $x ") ∧
    awkwardCredentials.AccessKeyId = some (bytes "K%s%d") ∧
    awkwardCredentials.SecretAccessKey = some (bytes "s'\"\n") ∧
    printPowershell (some awkwardCredentials) = some
      { stdout := bytes "$env:AWS_SESSION_TOKEN=' t $x '; $env:AWS_ACCESS_KEY_ID='K%s%d'; $env:AWS_SECRET_ACCESS_KEY='s'\"\n'",
        panic := none } :=
  ⟨rfl, rfl, rfl,
    (printPowershell_writes_assignments awkwardCredentials _ _ _ rfl rfl rfl).trans (by decide)⟩

/-- C3: when the credentials pointer is nil or one of SessionToken, AccessKeyId,
SecretAccessKey is nil, `printBash` and `printPowershell` both panic having written nothing;
hence for every credentials pointer each formatter either fails with empty output or writes
the complete statement built from the three values present, never anything in between. -/
theorem formatters_all_or_nothing (credentials : Option Credentials) :
    (Incomplete credentials →
      printBash credentials = some failedSilently ∧
      printPowershell credentials = some failedSilently) ∧
    (printBash credentials = some failedSilently ∨
      ∃ c t k s, credentials = some c ∧ c.SessionToken = some t ∧ c.AccessKeyId = some k ∧
        c.SecretAccessKey = some s ∧
        printBash credentials = some (wrote (posixStatement t k s))) ∧
    (printPowershell credentials = some failedSilently ∨
      ∃ c t k s, credentials = some c ∧ c.SessionToken = some t ∧ c.AccessKeyId = some k ∧
        c.SecretAccessKey = some s ∧
        printPowershell credentials = some (wrote (powershellStatement t k s))) := by
  refine ⟨fun h => ⟨printBash_incomplete _ h, printPowershell_incomplete _ h⟩, ?_, ?_⟩
  · rcases incomplete_or_present credentials with h | ⟨c, t, k, s, rfl, ht, hk, hs⟩
    · exact Or.inl (printBash_incomplete _ h)
    · exact Or.inr ⟨c, t, k, s, rfl, ht, hk, hs, printBash_present c t k s ht hk hs⟩
  · rcases incomplete_or_present credentials with h | ⟨c, t, k, s, rfl, ht, hk, hs⟩
    · exact Or.inl (printPowershell_incomplete _ h)
    · exact Or.inr ⟨c, t, k, s, rfl, ht, hk, hs, printPowershell_present c t k s ht hk hs⟩

theorem formatters_all_or_nothing_witness :
    Incomplete (some keylessCredentials) ∧ Incomplete none ∧
    printBash (some keylessCredentials) = some failedSilently ∧
    printPowershell (some keylessCredentials) = some failedSilently ∧
    printBash none = some failedSilently ∧
    printPowershell none = some failedSilently :=
  ⟨Or.inr (Or.inl rfl), trivial,
    ((formatters_all_or_nothing (some keylessCredentials)).1 (Or.inr (Or.inl rfl))).1,
    ((formatters_all_or_nothing (some keylessCredentials)).1 (Or.inr (Or.inl rfl))).2,
    ((formatters_all_or_nothing none).1 trivial).1,
    ((formatters_all_or_nothing none).1 trivial).2⟩

/-! ## The formatters: reading the output back -/

/-- C8: for credentials whose three values are present and hold no newline, the output of
`printBash` split on `'\n'` is exactly the three lines `export AWS_SESSION_TOKEN=` ++ t,
`export AWS_ACCESS_KEY_ID=` ++ k, `export AWS_SECRET_ACCESS_KEY=` ++ s, in this order, and
stripping the fixed literal of each line gives back `(t, k, s)`. -/
theorem printBash_three_lines (c : Credentials) (t k s : GoString)
    (ht : c.SessionToken = some t) (hk : c.AccessKeyId = some k)
    (hs : c.SecretAccessKey = some s)
    (hnt : newline ∉ t) (hnk : newline ∉ k) (hns : newline ∉ s) :
    ∃ out, printBash (some c) = some { stdout := out, panic := none } ∧
      out.splitOn newline =
        [bytes "export AWS_SESSION_TOKEN=" ++ t, bytes "export AWS_ACCESS_KEY_ID=" ++ k,
         bytes "export AWS_SECRET_ACCESS_KEY=" ++ s] ∧
      readExports out = some (t, k, s) := by
  refine ⟨posixStatement t k s, printBash_present c t k s ht hk hs,
    posixStatement_splitOn t k s hnt hnk hns, ?_⟩
  simp only [readExports, posixStatement_splitOn t k s hnt hnk hns, stripLiteral_append]
  rfl

theorem printBash_three_lines_witness :
    plainCredentials.SessionToken = some (bytes "FwoGZXIvYXdzEJr//////////wEaD=") ∧
    plainCredentials.AccessKeyId = some (bytes "AKIAEXAMPLE") ∧
    plainCredentials.SecretAccessKey = some (bytes "wJalr/K7MDENG+bPxRfiCY") ∧
    newline ∉ bytes "FwoGZXIvYXdzEJr//////////wEaD=" ∧
    newline ∉ bytes "AKIAEXAMPLE" ∧
    newline ∉ bytes "wJalr/K7MDENG+bPxRfiCY" ∧
    ∃ out, printBash (some plainCredentials) = some { stdout := out, panic := none } ∧
      out.splitOn newline =
        [bytes "export AWS_SESSION_TOKEN=" ++ bytes "FwoGZXIvYXdzEJr//////////wEaD=",
         bytes "export AWS_ACCESS_KEY_ID=" ++ bytes "AKIAEXAMPLE",
         bytes "export AWS_SECRET_ACCESS_KEY=" ++ bytes "wJalr/K7MDENG+bPxRfiCY"] ∧
      readExports out = some (bytes "FwoGZXIvYXdzEJr//////////wEaD=", bytes "AKIAEXAMPLE",
        bytes "wJalr/K7MDENG+bPxRfiCY") :=
  ⟨rfl, rfl, rfl, by decide, by decide, by decide,
    printBash_three_lines plainCredentials _ _ _ rfl rfl rfl (by decide) (by decide) (by decide)⟩

/-- C9: the output of `printBash` does not determine the credentials: the credentials with
token `a` and key id `b\nexport AWS_ACCESS_KEY_ID=c` and those with token
`a\nexport AWS_ACCESS_KEY_ID=b` and key id `c` (same secret) have all three values present,
differ as triples, and `printBash` returns normally with the same output for both. -/
theorem printBash_output_ambiguous :
    ∃ (c₁ c₂ : Credentials) (t₁ k₁ s₁ t₂ k₂ s₂ out : GoString),
      c₁.SessionToken = some t₁ ∧ c₁.AccessKeyId = some k₁ ∧ c₁.SecretAccessKey = some s₁ ∧
      c₂.SessionToken = some t₂ ∧ c₂.AccessKeyId = some k₂ ∧ c₂.SecretAccessKey = some s₂ ∧
      (t₁, k₁, s₁) ≠ (t₂, k₂, s₂) ∧
      printBash (some c₁) = some { stdout := out, panic := none } ∧
      printBash (some c₂) = some { stdout := out, panic := none } :=
  ⟨ambiguousLeft, ambiguousRight, bytes "a", bytes "b\nexport AWS_ACCESS_KEY_ID=c", bytes "s",
    bytes "a\nexport AWS_ACCESS_KEY_ID=b", bytes "c", bytes "s",
    bytes "export AWS_SESSION_TOKEN=a\nexport AWS_ACCESS_KEY_ID=b\nexport AWS_ACCESS_KEY_ID=c\nexport AWS_SECRET_ACCESS_KEY=s",
    rfl, rfl, rfl, rfl, rfl, rfl, by decide, by decide, by decide⟩

/-- C10: on credentials whose three values are present and hold no single quote,
`printPowershell` is injective in the three values: equal results force equal SessionToken,
AccessKeyId and SecretAccessKey. Its output then has exactly six single quotes and, split on
them, has the three values as the texts between the 1st and 2nd, the 3rd and 4th and the 5th
and 6th quote. -/
theorem printPowershell_injective (c₁ c₂ : Credentials) (t₁ k₁ s₁ t₂ k₂ s₂ : GoString)
    (ht₁ : c₁.SessionToken = some t₁) (hk₁ : c₁.AccessKeyId = some k₁)
    (hs₁ : c₁.SecretAccessKey = some s₁)
    (ht₂ : c₂.SessionToken = some t₂) (hk₂ : c₂.AccessKeyId = some k₂)
    (hs₂ : c₂.SecretAccessKey = some s₂)
    (hqt₁ : quote ∉ t₁) (hqk₁ : quote ∉ k₁) (hqs₁ : quote ∉ s₁)
    (hqt₂ : quote ∉ t₂) (hqk₂ : quote ∉ k₂) (hqs₂ : quote ∉ s₂) :
    ((printPowershell (some c₁)).map Outcome.stdout
        = (printPowershell (some c₂)).map Outcome.stdout →
      t₁ = t₂ ∧ k₁ = k₂ ∧ s₁ = s₂) ∧
    ∃ out, printPowershell (some c₁) = some { stdout := out, panic := none } ∧
      out.count quote = 6 ∧
      out.splitOn quote =
        [bytes "$env:AWS_SESSION_TOKEN=", t₁, bytes "; $env:AWS_ACCESS_KEY_ID=", k₁,
         bytes "; $env:AWS_SECRET_ACCESS_KEY=", s₁, []] := by
  refine ⟨fun h => ?_, powershellStatement t₁ k₁ s₁, printPowershell_present c₁ t₁ k₁ s₁ ht₁ hk₁ hs₁,
    powershellStatement_count t₁ k₁ s₁ hqt₁ hqk₁ hqs₁,
    powershellStatement_splitOn t₁ k₁ s₁ hqt₁ hqk₁ hqs₁⟩
  rw [printPowershell_present c₁ t₁ k₁ s₁ ht₁ hk₁ hs₁,
    printPowershell_present c₂ t₂ k₂ s₂ ht₂ hk₂ hs₂] at h
  have hout : powershellStatement t₁ k₁ s₁ = powershellStatement t₂ k₂ s₂ :=
    Option.some.inj h
  have hsplit := congrArg (List.splitOn quote) hout
  rw [powershellStatement_splitOn t₁ k₁ s₁ hqt₁ hqk₁ hqs₁,
    powershellStatement_splitOn t₂ k₂ s₂ hqt₂ hqk₂ hqs₂] at hsplit
  simp only [List.cons.injEq, true_and, and_true] at hsplit
  exact ⟨hsplit.1, hsplit.2.1, hsplit.2.2⟩

theorem printPowershell_injective_witness :
    ((printPowershell (some plainCredentials)).map Outcome.stdout
        = (printPowershell (some plainCredentialsLater)).map Outcome.stdout →
      bytes "FwoGZXIvYXdzEJr//////////wEaD=" = bytes "FwoGZXIvYXdzEJr//////////wEaD=" ∧
      bytes "AKIAEXAMPLE" = bytes "AKIAEXAMPLE" ∧
      bytes "wJalr/K7MDENG+bPxRfiCY" = bytes "wJalr/K7MDENG+bPxRfiCY") ∧
    ∃ out, printPowershell (some plainCredentials) = some { stdout := out, panic := none } ∧
      out.count quote = 6 ∧
      out.splitOn quote =
        [bytes "$env:AWS_SESSION_TOKEN=", bytes "FwoGZXIvYXdzEJr//////////wEaD=",
         bytes "; $env:AWS_ACCESS_KEY_ID=", bytes "AKIAEXAMPLE",
         bytes "; $env:AWS_SECRET_ACCESS_KEY=", bytes "wJalr/K7MDENG+bPxRfiCY", []] :=
  printPowershell_injective plainCredentials plainCredentialsLater _ _ _ _ _ _
    rfl rfl rfl rfl rfl rfl (by decide) (by decide) (by decide) (by decide) (by decide)
    (by decide)

/-! ## `GetUserInfoFromPrintCmdOptions` and `Print` -/

/-- C6: `GetUserInfoFromPrintCmdOptions o` is the `UserInfo` whose Org, User, Account, NoMask
and Password are those of `o`, unchanged; it does not depend on `o.Provider`: options that
agree with `o` on these five fields, whatever their provider, give the same `UserInfo`. -/
theorem GetUserInfoFromPrintCmdOptions_copies {Session World : Type}
    (o : PrintCmdOptions Session World) :
    GetUserInfoFromPrintCmdOptions o =
      { Org := o.Org, User := o.User, Account := o.Account, NoMask := o.NoMask,
        Password := o.Password } ∧
    ∀ o₂ : PrintCmdOptions Session World,
      o₂.Org = o.Org → o₂.User = o.User → o₂.Account = o.Account → o₂.NoMask = o.NoMask →
      o₂.Password = o.Password →
      GetUserInfoFromPrintCmdOptions o₂ = GetUserInfoFromPrintCmdOptions o := by
  refine ⟨rfl, fun o₂ h₁ h₂ h₃ h₄ h₅ => ?_⟩
  simp only [GetUserInfoFromPrintCmdOptions, h₁, h₂, h₃, h₄, h₅]

theorem GetUserInfoFromPrintCmdOptions_copies_witness :
    GetUserInfoFromPrintCmdOptions acmeOptions =
      { Org := bytes "acme", User := bytes "alice", Account := bytes "role/dev", NoMask := false,
        Password := bytes "p" } ∧
    GetUserInfoFromPrintCmdOptions acmeOptionsUnset
      = GetUserInfoFromPrintCmdOptions acmeOptions :=
  ⟨(GetUserInfoFromPrintCmdOptions_copies acmeOptions).1,
    (GetUserInfoFromPrintCmdOptions_copies acmeOptions).2 acmeOptionsUnset rfl rfl rfl rfl rfl⟩

/-- C4: with no provider set, `Print` obtains the credentials from the AWS variant: its only
`GetCredentials` invocation is on the AWS variant, and the result and the world it leaves are
those of one exchange with the AWS variant followed by the formatter. With a provider set,
the same holds of that provider, and the AWS variant takes no part. The substitution is made
in `Print`'s own parameter variable: when `Print` ends that variable holds the effective
provider, and the caller's variables hold what they held before. -/
theorem Print_selects_provider {Session World : Type} (aws : ServiceProvider Session World)
    (format : Option Credentials → World → Returns Unit × World) (s : Session)
    (o : PrintCmdOptions Session World) (w : World) :
    (o.Provider = none →
      (Print aws format s o w).calls.map Call.provider = [aws] ∧
      ((Print aws format s o w).result, (Print aws format s o w).world)
        = obtainAndFormat aws format s (GetUserInfoFromPrintCmdOptions o) w) ∧
    (∀ provider, o.Provider = some provider →
      (Print aws format s o w).calls.map Call.provider = [provider] ∧
      ((Print aws format s o w).result, (Print aws format s o w).world)
        = obtainAndFormat provider format s (GetUserInfoFromPrintCmdOptions o) w) ∧
    (Print aws format s o w).stack.printOptions
      = { o with Provider := some (effectiveProvider aws o) } ∧
    (Print aws format s o w).stack.caller = { oktaClient := s, printOptions := o } := by
  have hcalls := Print_calls aws format s o w
  have hrw := Print_result_world aws format s o w
  have hstack := Print_stack aws format s o w
  refine ⟨fun h => ?_, fun provider h => ?_, ?_, ?_⟩
  · have he : effectiveProvider aws o = aws := by simp [effectiveProvider, h]
    rw [he] at hcalls hrw
    exact ⟨by rw [hcalls]; rfl, hrw⟩
  · have he : effectiveProvider aws o = provider := by simp [effectiveProvider, h]
    rw [he] at hcalls hrw
    exact ⟨by rw [hcalls]; rfl, hrw⟩
  · rw [hstack]; rfl
  · rw [hstack]; rfl

theorem Print_selects_provider_witness :
    ((Print (ledgerProvider (bytes "aws")) ledgerFormat () aliceOptions emptyLedger).calls.map
        Call.provider = [ledgerProvider (bytes "aws")] ∧
      ((Print (ledgerProvider (bytes "aws")) ledgerFormat () aliceOptions emptyLedger).result,
        (Print (ledgerProvider (bytes "aws")) ledgerFormat () aliceOptions emptyLedger).world)
        = (.value (),
            { exchanges := [bytes "aws"],
              printed :=
                [some { AccessKeyId := some (bytes "aws"), Expiration := some 0,
                        SecretAccessKey := some (bytes "p"),
                        SessionToken := some (bytes "alice") }] })) ∧
    ((Print (ledgerProvider (bytes "aws")) ledgerFormat () aliceOptionsOther emptyLedger).calls.map
        Call.provider = [ledgerProvider (bytes "other")] ∧
      ((Print (ledgerProvider (bytes "aws")) ledgerFormat () aliceOptionsOther emptyLedger).result,
        (Print (ledgerProvider (bytes "aws")) ledgerFormat () aliceOptionsOther emptyLedger).world)
        = (.value (),
            { exchanges := [bytes "other"],
              printed :=
                [some { AccessKeyId := some (bytes "other"), Expiration := some 0,
                        SecretAccessKey := some (bytes "p"),
                        SessionToken := some (bytes "alice") }] })) ∧
    (Print (ledgerProvider (bytes "aws")) ledgerFormat () aliceOptions emptyLedger).stack.caller
      = { oktaClient := (), printOptions := aliceOptions } :=
  ⟨(Print_selects_provider (ledgerProvider (bytes "aws")) ledgerFormat () aliceOptions
      emptyLedger).1 rfl,
   (Print_selects_provider (ledgerProvider (bytes "aws")) ledgerFormat () aliceOptionsOther
      emptyLedger).2.1 (ledgerProvider (bytes "other")) rfl,
   (Print_selects_provider (ledgerProvider (bytes "aws")) ledgerFormat () aliceOptions
      emptyLedger).2.2.2⟩

/-- C5: `Print` invokes `GetCredentials` exactly once, on the effective provider, with the
caller's session and with `GetUserInfoFromPrintCmdOptions printOptions`. When that call
returns `creds` leaving the world `w₁`, the whole run is: that one call, then the formatter
applied to `creds` in `w₁`, whose result and world are the run's. When it does not return,
the run is that one call and ends there, in the world the call left. -/
theorem Print_calls_GetCredentials_once {Session World : Type}
    (aws : ServiceProvider Session World)
    (format : Option Credentials → World → Returns Unit × World) (s : Session)
    (o : PrintCmdOptions Session World) (w : World) :
    (Print aws format s o w).calls =
      [{ provider := effectiveProvider aws o,
         oktaClient := s,
         user := GetUserInfoFromPrintCmdOptions o }] ∧
    (∀ creds w₁,
      (effectiveProvider aws o).GetCredentials s (GetUserInfoFromPrintCmdOptions o) w
        = (.value creds, w₁) →
      Print aws format s o w =
        { stack := stackAfter aws s o,
          trace :=
            [.GetCredentials
              { provider := effectiveProvider aws o,
                oktaClient := s,
                user := GetUserInfoFromPrintCmdOptions o },
             .printDefaultFormat creds],
          world := (format creds w₁).2,
          result := (format creds w₁).1 }) ∧
    (∀ w₁,
      (effectiveProvider aws o).GetCredentials s (GetUserInfoFromPrintCmdOptions o) w
        = (.abort, w₁) →
      Print aws format s o w =
        { stack := stackAfter aws s o,
          trace :=
            [.GetCredentials
              { provider := effectiveProvider aws o,
                oktaClient := s,
                user := GetUserInfoFromPrintCmdOptions o }],
          world := w₁,
          result := .abort }) := by
  refine ⟨Print_calls aws format s o w, fun creds w₁ h => ?_, fun w₁ h => ?_⟩
  · exact Print_of_value aws format s o w w₁ creds h
  · exact Print_of_abort aws format s o w w₁ h

theorem Print_calls_GetCredentials_once_witness :
    Print (ledgerProvider (bytes "aws")) ledgerFormat () aliceOptionsOther emptyLedger =
      { stack :=
          { caller := { oktaClient := (), printOptions := aliceOptionsOther },
            oktaClient := (),
            printOptions := aliceOptionsOther },
        trace :=
          [.GetCredentials
            { provider := ledgerProvider (bytes "other"),
              oktaClient := (),
              user := { Org := bytes "acme", User := bytes "alice", Account := bytes "role/dev",
                        NoMask := false, Password := bytes "p" } },
           .printDefaultFormat
            (some { AccessKeyId := some (bytes "other"), Expiration := some 0,
                    SecretAccessKey := some (bytes "p"),
                    SessionToken := some (bytes "alice") })],
        world :=
          { exchanges := [bytes "other"],
            printed :=
              [some { AccessKeyId := some (bytes "other"), Expiration := some 0,
                      SecretAccessKey := some (bytes "p"),
                      SessionToken := some (bytes "alice") }] },
        result := .value () } :=
  (Print_calls_GetCredentials_once (ledgerProvider (bytes "aws")) ledgerFormat ()
    aliceOptionsOther emptyLedger).2.1 _ _ rfl

/-- C7, as stated, fails: with empty Org and User in the options, `Print` still invokes
`GetCredentials`, and the `UserInfo` it passes has an empty Org and an empty User. -/
theorem Print_passes_empty_org_and_user :
    ¬ OrgAndUserNonEmpty (Print nilProvider silentFormat () emptyOptions ()) := by
  intro h
  have hcalls := Print_calls nilProvider silentFormat () emptyOptions ()
  have hmem := h _ (by rw [hcalls]; exact List.mem_singleton_self _)
  exact hmem.1 rfl

/-- C7, amended: for options whose Org and User are non-empty, every `GetCredentials`
invocation of `Print` receives a `UserInfo` with a non-empty Org and a non-empty User. -/
theorem Print_keeps_org_and_user {Session World : Type} (aws : ServiceProvider Session World)
    (format : Option Credentials → World → Returns Unit × World) (s : Session)
    (o : PrintCmdOptions Session World) (w : World) (hOrg : o.Org ≠ []) (hUser : o.User ≠ []) :
    OrgAndUserNonEmpty (Print aws format s o w) := by
  intro call hcall
  rw [Print_calls aws format s o w, List.mem_singleton] at hcall
  subst hcall
  exact ⟨hOrg, hUser⟩

theorem Print_keeps_org_and_user_witness :
    acmeOptions.Org ≠ [] ∧ acmeOptions.User ≠ [] ∧
    OrgAndUserNonEmpty (Print nilProvider silentFormat () acmeOptions ()) :=
  ⟨by decide, by decide,
    Print_keeps_org_and_user nilProvider silentFormat () acmeOptions () (by decide) (by decide)⟩

end Bmx
